import Mathlib

/-!
Verification development for the chat-app repository (src/src/message.rs,
src/src/server.rs, src/src/client.rs, src/src/main.rs).

The Rust source is shallowly embedded:
* `MessageType` and `ChatMessage` mirror `src/src/message.rs`.
* JSON serialization (`serde_json` together with the `#[derive(Serialize,
  Deserialize)]` on `ChatMessage` and `MessageType`, and `uuid::serde::simple`
  on the `id` field) is embedded at the level of serde's data model: a `Json`
  value tree.  The spec treats the textual JSON layer as a black-box
  serializer, so `to_json`/`from_json` here produce and consume `Json` values
  with exactly the field names, the simple (32 lowercase hex characters) UUID
  representation, the `u64` timestamp and the externally-tagged unit-variant
  enum encoding that the derived serde code uses.
* Rust `Uuid` is a 128-bit value, modelled as `Fin (2 ^ 128)`; `u64` is
  modelled as `Fin (2 ^ 64)`.
* `ChatServer` (src/src/server.rs) is embedded as a trace semantics: the
  external world of one session (the lines arriving on its socket, the
  results its broadcast receiver yields, the UUIDs and clock readings drawn
  at each `ChatMessage::new` call) is an explicit input, and the session
  produces the list of writes to its socket, the list of values published to
  the broadcast hub, and the final registry.
-/

namespace Chat

/-- `MessageType` enum from src/src/message.rs. -/
inductive MessageType
  | Text
  | Join
  | Leave
  | System
deriving DecidableEq, Repr

/-- 128-bit UUID value (`uuid::Uuid`). -/
abbrev Uuid := Fin (2 ^ 128)

/-- Rust `u64`. -/
abbrev U64 := Fin (2 ^ 64)

/-- `ChatMessage` struct from src/src/message.rs. -/
structure ChatMessage where
  id : Uuid
  username : String
  content : String
  timestamp : U64
  message_type : MessageType
deriving DecidableEq, Repr

/-- serde_json's data model: a JSON value tree. -/
inductive Json
  | null
  | bool (b : Bool)
  | num (n : Int)
  | str (s : String)
  | arr (elems : List Json)
  | obj (fields : List (String × Json))

/-- Lowercase hexadecimal digit character (the simple UUID format is
lowercase). -/
def hexChar (d : Nat) : Char :=
  if d < 10 then Char.ofNat (48 + d) else Char.ofNat (87 + d)

/-- Value of a hexadecimal digit character (the uuid crate's parser accepts
both cases). -/
def hexVal (c : Char) : Option Nat :=
  if 48 ≤ c.toNat ∧ c.toNat ≤ 57 then some (c.toNat - 48)
  else if 97 ≤ c.toNat ∧ c.toNat ≤ 102 then some (c.toNat - 87)
  else if 65 ≤ c.toNat ∧ c.toNat ≤ 70 then some (c.toNat - 55)
  else none

/-- The `i`-th little-endian base-16 digit of `n`. -/
def nibble (n i : Nat) : Nat := n / 16 ^ i % 16

/-- Big-endian hex digits of a 128-bit value, zero-padded to 32 digits: the
digit list of the simple UUID format. -/
def uuidHexDigits (n : Nat) : List Nat :=
  ((List.range 32).reverse).map (nibble n)

/-- `uuid::serde::simple` serialization: 32 lowercase hex characters. -/
def uuidSimple (u : Uuid) : String :=
  String.mk ((uuidHexDigits u.val).map hexChar)

/-- Parse a list of hex characters into their digit values. -/
def parseHexList : List Char → Option (List Nat)
  | [] => some []
  | c :: cs =>
    match hexVal c, parseHexList cs with
    | some d, some ds => some (d :: ds)
    | _, _ => none

/-- `uuid::serde::simple` deserialization: exactly 32 hex characters,
big-endian. -/
def parseUuidSimple (s : String) : Option Uuid :=
  let cs := s.toList
  if cs.length = 32 then
    match parseHexList cs with
    | some ds =>
        let n := Nat.ofDigits 16 ds.reverse
        if h : n < 2 ^ 128 then some ⟨n, h⟩ else none
    | none => none
  else none

/-- Externally-tagged serde encoding of a unit enum variant: its name. -/
def MessageType.tag : MessageType → String
  | .Text => "Text"
  | .Join => "Join"
  | .Leave => "Leave"
  | .System => "System"

/-- serde deserialization of the `MessageType` unit variants from their
names. -/
def MessageType.ofTag (s : String) : Option MessageType :=
  if s = "Text" then some .Text
  else if s = "Join" then some .Join
  else if s = "Leave" then some .Leave
  else if s = "System" then some .System
  else none

/-- `ChatMessage::to_json` (src/src/message.rs, lines 36-38), at serde's
data-model level: the derived `Serialize` writes the five fields in
declaration order, the id in simple format, the enum as its tag string. -/
def ChatMessage.to_json (m : ChatMessage) : Json :=
  .obj [("id", .str (uuidSimple m.id)),
        ("username", .str m.username),
        ("content", .str m.content),
        ("timestamp", .num (m.timestamp.val : Int)),
        ("message_type", .str m.message_type.tag)]

/-- Field lookup in a JSON object (first occurrence). -/
def Json.getField (j : Json) (key : String) : Option Json :=
  match j with
  | .obj fields => (fields.find? (fun f => f.1 == key)).map (·.2)
  | _ => none

/-- Deserialization of a `u64` field: a JSON number in `[0, 2^64)`. -/
def parseU64 : Json → Option U64
  | .num n => if h : 0 ≤ n ∧ n.toNat < 2 ^ 64 then some ⟨n.toNat, h.2⟩ else none
  | _ => none

/-- Deserialization of a string field. -/
def parseStr : Json → Option String
  | .str s => some s
  | _ => none

/-- Deserialization of the `id`, `username` and `content` fields. -/
def parseIdNameContent (j : Json) : Option (Uuid × String × String) :=
  (j.getField "id").bind fun ji =>
  (parseStr ji).bind fun si =>
  (parseUuidSimple si).bind fun id =>
  (j.getField "username").bind fun ju =>
  (parseStr ju).bind fun u =>
  (j.getField "content").bind fun jc =>
  (parseStr jc).bind fun c =>
  some (id, u, c)

/-- Deserialization of the `timestamp` and `message_type` fields. -/
def parseTimeKind (j : Json) : Option (U64 × MessageType) :=
  (j.getField "timestamp").bind fun jt =>
  (parseU64 jt).bind fun t =>
  (j.getField "message_type").bind fun jm =>
  (parseStr jm).bind fun sm =>
  (MessageType.ofTag sm).bind fun mt =>
  some (t, mt)

/-- `ChatMessage::from_json` (src/src/message.rs, lines 40-42), at serde's
data-model level: the derived `Deserialize` requires all five fields with the
respective representations, failing with an error otherwise. -/
def ChatMessage.from_json (j : Json) : Except String ChatMessage :=
  match parseIdNameContent j, parseTimeKind j with
  | some p, some q => .ok ⟨p.1, p.2.1, p.2.2, q.1, q.2⟩
  | _, _ => .error "invalid ChatMessage"

/-- Model of Rust `str::trim`: strip leading and trailing whitespace. -/
def trim (s : String) : String :=
  String.mk (((s.toList.dropWhile Char.isWhitespace).reverse.dropWhile
    Char.isWhitespace).reverse)

/-- Truncation to `u64` (`Duration::as_secs` yields a `u64`). -/
def truncU64 (n : Nat) : U64 := ⟨n % 2 ^ 64, Nat.mod_lt _ (Nat.two_pow_pos 64)⟩

/-- `ChatMessage::new` (src/src/message.rs, lines 23-34), with the external
world explicit: `id` is the value drawn by `Uuid::new_v4`, `now` the clock
reading in seconds relative to the Unix epoch.
`SystemTime::now().duration_since(UNIX_EPOCH)` returns `Err` when the clock is
before the epoch, and the `.unwrap()` on it then panics: the panic is
modelled as `none`. -/
def ChatMessage.new (id : Uuid) (username content : String)
    (message_type : MessageType) (now : Int) : Option ChatMessage :=
  if 0 ≤ now then some ⟨id, username, content, truncU64 now.toNat, message_type⟩
  else none

/-! ### The server (src/src/server.rs) -/

/-- Connection identity (stands for the `TcpStream` value stored in the
registry; the server never reads it back). -/
abbrev ConnId := Nat

/-- The shared state `Arc<Mutex<HashMap<String, TcpStream>>>`, as an
association list. -/
def Registry := List (String × ConnId)

/-- `HashMap::insert`: overwrites any previous entry under the same key. -/
def Registry.insert (r : Registry) (k : String) (v : ConnId) : Registry :=
  (k, v) :: List.filter (fun e => !(e.1 == k)) r

/-- `HashMap::remove`. -/
def Registry.remove (r : Registry) (k : String) : Registry :=
  List.filter (fun e => !(e.1 == k)) r

/-- `HashMap::contains_key`. -/
def Registry.containsKey (r : Registry) (k : String) : Bool :=
  List.any r (fun e => e.1 == k)

/-- Capacity of the broadcast hub: `broadcast::channel(100)` at
src/src/server.rs line 22. -/
def channelCapacity : Nat := 100

/-- A result of `receiver.recv().await` on a broadcast receiver: a message,
`RecvError::Lagged` (the receiver fell more than the capacity behind and
buffered messages were evicted), or `RecvError::Closed`. -/
inductive RecvEvent
  | msg (j : Json)
  | lagged
  | closed

/-- One write to a session's socket: either raw bytes or an encoded envelope
followed by a newline. -/
inductive WriteItem
  | raw (s : String)
  | line (j : Json)

/-- The Join envelope built at src/src/server.rs lines 79-83.  Note the
source's payload literal is `"{} joint the chat!"`. -/
def joinMsg (username : String) (id : Uuid) (t : U64) : ChatMessage :=
  ⟨id, username, username ++ " joint the chat!", t, .Join⟩

/-- The welcome envelope built at src/src/server.rs lines 86-90. -/
def welcomeMsg (username : String) (id : Uuid) (t : U64) : ChatMessage :=
  ⟨id, "System", "Welcome to the chat," ++ username ++ "! Type 'quit' to exit",
   t, .System⟩

/-- The Leave envelope built at src/src/server.rs lines 136-140. -/
def leaveMsg (username : String) (id : Uuid) (t : U64) : ChatMessage :=
  ⟨id, username, username ++ " left the chat!", t, .Leave⟩

/-- The inbound read loop of the task spawned at src/src/server.rs lines
100-132: read lines until EOF (end of the list), a read error (also modelled
by list end) or the first line trimming to `/quit`; every other non-empty
trimmed line is wrapped as a Text envelope and published.  `k` counts the
`ChatMessage::new` calls already made by this session, numbering the id and
clock draws; the first component is the published encodings, the second the
final counter. -/
def inboundLoop (username : String) (ids : Nat → Uuid) (times : Nat → U64) :
    List String → Nat → List Json × Nat
  | [], k => ([], k)
  | line :: rest, k =>
    let content := trim line
    if content = "/quit" then ([], k)
    else if content = "" then inboundLoop username ids times rest k
    else
      let tail := inboundLoop username ids times rest (k + 1)
      ((ChatMessage.mk (ids k) username content (times k) .Text).to_json ::
        tail.1, tail.2)

/-- The whole inbound task (src/src/server.rs lines 100-143): if the guard at
its start fails it returns at once publishing nothing; otherwise it runs the
read loop and then publishes exactly one Leave envelope. -/
def inboundTask (username : String) (ids : Nat → Uuid) (times : Nat → U64)
    (lines : List String) (setupOk : Bool) : List Json :=
  if setupOk then
    let r := inboundLoop username ids times lines 2
    r.1 ++ [(leaveMsg username (ids r.2) (times r.2)).to_json]
  else []

/-- The outbound loop of src/src/server.rs lines 145-160: for each received
message, decode it; on success and only when the origin differs from this
session's username, write it to the socket.  Decode failures are skipped,
`Lagged` is skipped, `Closed` ends the loop. -/
def outboundWrites (username : String) : List RecvEvent → List Json
  | [] => []
  | .msg j :: rest =>
    match ChatMessage.from_json j with
    | .ok cm =>
        if cm.username ≠ username then j :: outboundWrites username rest
        else outboundWrites username rest
    | .error _ => outboundWrites username rest
  | .lagged :: rest => outboundWrites username rest
  | .closed :: _ => []

/-- External world of one session: the lines its socket delivers, its
receiver's results, and the UUID/clock draws of its `ChatMessage::new`
calls (the model assumes a post-epoch clock, so every draw succeeds). -/
structure SessionInput where
  firstLine : String
  lines : List String
  inboundSetupOk : Bool
  recvs : List RecvEvent
  ids : Nat → Uuid
  times : Nat → U64

/-- Observable outcome of one session. -/
structure SessionResult where
  written : List WriteItem
  published : List Json
  registry : Registry

/-- `ChatServer::handle_client` (src/src/server.rs, lines 51-173) run to
completion, sequentially: prompt, read and trim the username line; empty →
rejection notice and return; otherwise insert into the registry, build the
Join envelope (the source constructs it but never publishes it), write the
welcome envelope, run the inbound task and the outbound loop, and finally
remove the username from the registry.  The two loops are concurrent in the
source; `published` collects the inbound task's sends and `written` this
socket's writes. -/
def handle_client (inp : SessionInput) (reg : Registry) (conn : ConnId) :
    SessionResult :=
  let username := trim inp.firstLine
  if username = "" then
    { written := [.raw "Enter Username : ", .raw "Username cannot be empty!\n"],
      published := [], registry := reg }
  else
    let reg1 := reg.insert username conn
    let welcome := welcomeMsg username (inp.ids 1) (inp.times 1)
    let pubs := inboundTask username inp.ids inp.times inp.lines inp.inboundSetupOk
    let outs := outboundWrites username inp.recvs
    { written := [.raw "Enter Username : ", .line welcome.to_json] ++
        outs.map .line,
      published := pubs,
      registry := reg1.remove username }

/-- Observable event of one connection's lifecycle, including the engine-side
subscription made for it in `ChatServer::run`. -/
inductive Event
  | subscribe
  | write (w : WriteItem)
  | regInsert (u : String)
  | regRemove (u : String)
  | publish (j : Json)

/-- Event trace of one accepted connection: `ChatServer::run` (line 39)
creates the session's broadcast subscription before spawning
`handle_client`; then the handler's steps follow in program order.  The two
concurrent loops are serialized inbound-first; claims about the trace concern
only its prefix and the per-loop projections, which do not depend on the
interleaving. -/
def sessionTrace (inp : SessionInput) : List Event :=
  [.subscribe, .write (.raw "Enter Username : ")] ++
  (let username := trim inp.firstLine
   if username = "" then [.write (.raw "Username cannot be empty!\n")]
   else
     [.regInsert username,
      .write (.line (welcomeMsg username (inp.ids 1) (inp.times 1)).to_json)] ++
     (inboundTask username inp.ids inp.times inp.lines inp.inboundSetupOk).map
       .publish ++
     (outboundWrites username inp.recvs).map (fun j => .write (.line j)) ++
     [.regRemove username])

/-- The accept loop of `ChatServer::run` (src/src/server.rs, lines 34-46):
`while let Ok((stream, addr)) = self.listener.accept().await` handles
accepted connections in order and exits the loop at the first accept error
(after which `run` returns `Ok(())`). -/
def acceptLoop : List (Except Unit ConnId) → List ConnId
  | [] => []
  | .ok c :: rest => c :: acceptLoop rest
  | .error _ :: _ => []

/-- The envelopes a list of hub payloads decodes to, skipping undecodable
entries. -/
def decodedMsgs (l : List Json) : List ChatMessage :=
  l.filterMap (fun j => (ChatMessage.from_json j).toOption)

/-- How many payloads of `l` decode to an envelope of kind `k`. -/
def countKind (k : MessageType) (l : List Json) : Nat :=
  (List.filter (fun cm => cm.message_type == k) (decodedMsgs l)).length

/-- A concrete session input (username line "alice", one chat line, then
`/quit`), used to instantiate the general theorems. -/
def sampleInput : SessionInput :=
  ⟨"alice", ["hi", "/quit"], true, [],
   fun _ => ⟨0, Nat.two_pow_pos 128⟩, fun _ => ⟨0, Nat.two_pow_pos 64⟩⟩

/-! ### Round-trip lemmas for the serialization -/

theorem hexVal_hexChar {d : Nat} (hd : d < 16) : hexVal (hexChar d) = some d := by
  interval_cases d <;> decide

theorem nibble_lt (n i : Nat) : nibble n i < 16 :=
  Nat.mod_lt _ (by norm_num)

theorem parseHexList_map_hexChar {l : List Nat} (hl : ∀ d ∈ l, d < 16) :
    parseHexList (l.map hexChar) = some l := by
  induction l with
  | nil => rfl
  | cons d ds ih =>
      have hd : d < 16 := hl d (List.mem_cons_self d ds)
      have : parseHexList (ds.map hexChar) = some ds :=
        ih fun x hx => hl x (List.mem_cons_of_mem d hx)
      simp [parseHexList, hexVal_hexChar hd, this]

theorem ofDigits_range_nibble (n : Nat) : ∀ k : Nat,
    Nat.ofDigits 16 ((List.range k).map (nibble n)) = n % 16 ^ k := by
  intro k
  induction k with
  | zero => simp [Nat.ofDigits_nil, Nat.mod_one]
  | succ k ih =>
      rw [List.range_succ, List.map_append, Nat.ofDigits_append, ih]
      have h16 : (16 : Nat) ^ (k + 1) = 16 ^ k * 16 := by ring
      rw [h16, Nat.mod_mul]
      simp [Nat.ofDigits_singleton, nibble]

theorem parseUuidSimple_uuidSimple (u : Uuid) :
    parseUuidSimple (uuidSimple u) = some u := by
  have hlen : ((uuidHexDigits u.val).map hexChar).length = 32 := by
    simp [uuidHexDigits]
  have hdig : ∀ d ∈ uuidHexDigits u.val, d < 16 := by
    intro d hd
    simp only [uuidHexDigits, List.mem_map] at hd
    obtain ⟨i, _, rfl⟩ := hd
    exact nibble_lt _ _
  have hrev : (uuidHexDigits u.val).reverse = (List.range 32).map (nibble u.val) := by
    simp [uuidHexDigits, List.map_reverse]
  have hval : Nat.ofDigits 16 ((uuidHexDigits u.val).reverse) = u.val := by
    rw [hrev, ofDigits_range_nibble]
    have h1632 : (16 : Nat) ^ 32 = 2 ^ 128 := by norm_num
    rw [h1632]
    exact Nat.mod_eq_of_lt u.isLt
  have htl : (String.mk ((uuidHexDigits u.val).map hexChar)).toList =
      (uuidHexDigits u.val).map hexChar := rfl
  rw [uuidSimple, parseUuidSimple]
  simp only [htl, hlen, if_pos, parseHexList_map_hexChar hdig, hval]
  simp [u.isLt, Fin.ext_iff]

theorem mt_ofTag_tag (mt : MessageType) : MessageType.ofTag mt.tag = some mt := by
  cases mt <;> rfl

theorem getField_id (m : ChatMessage) :
    m.to_json.getField "id" = some (.str (uuidSimple m.id)) := rfl

theorem getField_username (m : ChatMessage) :
    m.to_json.getField "username" = some (.str m.username) := rfl

theorem getField_content (m : ChatMessage) :
    m.to_json.getField "content" = some (.str m.content) := rfl

theorem getField_timestamp (m : ChatMessage) :
    m.to_json.getField "timestamp" = some (.num (m.timestamp.val : Int)) := rfl

theorem getField_mt (m : ChatMessage) :
    m.to_json.getField "message_type" = some (.str m.message_type.tag) := rfl

theorem parseU64_num (t : U64) : parseU64 (.num (t.val : Int)) = some t := by
  have ht : (0 : Int) ≤ (t.val : Int) ∧ ((t.val : Int)).toNat < 2 ^ 64 := by
    refine ⟨by positivity, ?_⟩
    simp [t.isLt]
  simp [parseU64, ht, Fin.ext_iff]

theorem parseIdNameContent_to_json (m : ChatMessage) :
    parseIdNameContent m.to_json = some (m.id, m.username, m.content) := by
  simp only [parseIdNameContent, getField_id, getField_username, getField_content,
    Option.some_bind, parseStr, parseUuidSimple_uuidSimple]

theorem parseTimeKind_to_json (m : ChatMessage) :
    parseTimeKind m.to_json = some (m.timestamp, m.message_type) := by
  simp only [parseTimeKind, getField_timestamp, getField_mt,
    Option.some_bind, parseStr, parseU64_num, mt_ofTag_tag]

/-- Round trip at serde's data-model level: decoding the encoding of any
envelope succeeds and returns the envelope unchanged. -/
theorem from_json_to_json (m : ChatMessage) :
    ChatMessage.from_json m.to_json = .ok m := by
  simp only [ChatMessage.from_json, parseIdNameContent_to_json, parseTimeKind_to_json]

/-! ### Lemmas about the session model -/

theorem decodedMsgs_append (a b : List Json) :
    decodedMsgs (a ++ b) = decodedMsgs a ++ decodedMsgs b :=
  List.filterMap_append a b _

theorem decodedMsgs_cons_to_json (m : ChatMessage) (rest : List Json) :
    decodedMsgs (m.to_json :: rest) = m :: decodedMsgs rest := by
  simp [decodedMsgs, from_json_to_json, Except.toOption]

theorem decodedMsgs_mem {l : List Json} {cm : ChatMessage}
    (h : cm ∈ decodedMsgs l) : ∃ j ∈ l, ChatMessage.from_json j = .ok cm := by
  simp only [decodedMsgs, List.mem_filterMap] at h
  obtain ⟨j, hj, hdec⟩ := h
  refine ⟨j, hj, ?_⟩
  cases hfrom : ChatMessage.from_json j with
  | ok m => rw [hfrom] at hdec; simp [Except.toOption] at hdec; rw [hdec]
  | error e => rw [hfrom] at hdec; simp [Except.toOption] at hdec

theorem inboundLoop_mem (u : String) (ids : Nat → Uuid) (times : Nat → U64) :
    ∀ (lines : List String) (k : Nat) (j : Json),
      j ∈ (inboundLoop u ids times lines k).1 →
      ∃ cm : ChatMessage, j = cm.to_json ∧ cm.username = u ∧
        cm.message_type = .Text := by
  intro lines
  induction lines with
  | nil => intro k j h; simp [inboundLoop] at h
  | cons line rest ih =>
      intro k j h
      simp only [inboundLoop] at h
      by_cases hq : trim line = "/quit"
      · rw [if_pos hq] at h
        simp at h
      · rw [if_neg hq] at h
        by_cases he : trim line = ""
        · rw [if_pos he] at h
          exact ih k j h
        · rw [if_neg he] at h
          rcases List.mem_cons.mp h with h1 | h2
          · exact ⟨_, h1, rfl, rfl⟩
          · exact ih (k + 1) j h2

theorem inboundTask_mem {u : String} {ids : Nat → Uuid} {times : Nat → U64}
    {lines : List String} {ok : Bool} {j : Json}
    (h : j ∈ inboundTask u ids times lines ok) :
    ∃ cm : ChatMessage, j = cm.to_json ∧ cm.username = u ∧
      (cm.message_type = .Text ∨
        (cm.message_type = .Leave ∧ cm.content = u ++ " left the chat!")) := by
  cases ok with
  | false => simp [inboundTask] at h
  | true =>
      simp only [inboundTask, if_pos] at h
      rcases List.mem_append.mp h with h1 | h2
      · obtain ⟨cm, hj, hu, hk⟩ := inboundLoop_mem u ids times lines 2 j h1
        exact ⟨cm, hj, hu, Or.inl hk⟩
      · rcases List.mem_singleton.mp h2 with rfl
        exact ⟨_, rfl, rfl, Or.inr ⟨rfl, rfl⟩⟩

theorem decodedMsgs_inboundLoop (u : String) (ids : Nat → Uuid)
    (times : Nat → U64) (lines : List String) (k : Nat) :
    ∀ cm ∈ decodedMsgs (inboundLoop u ids times lines k).1,
      cm.username = u ∧ cm.message_type = .Text := by
  intro cm hcm
  obtain ⟨j, hj, hfrom⟩ := decodedMsgs_mem hcm
  obtain ⟨cm', hj', hu, hk⟩ := inboundLoop_mem u ids times lines k j hj
  rw [hj', from_json_to_json] at hfrom
  cases hfrom
  exact ⟨hu, hk⟩

theorem countKind_inboundTask_leave (u : String) (ids : Nat → Uuid)
    (times : Nat → U64) (lines : List String) :
    countKind .Leave (inboundTask u ids times lines true) = 1 := by
  rw [inboundTask, if_pos rfl]
  rw [countKind, decodedMsgs_append]
  have hleave : decodedMsgs [(leaveMsg u (ids (inboundLoop u ids times lines 2).2)
      (times (inboundLoop u ids times lines 2).2)).to_json] =
      [leaveMsg u (ids (inboundLoop u ids times lines 2).2)
        (times (inboundLoop u ids times lines 2).2)] :=
    decodedMsgs_cons_to_json _ []
  rw [hleave, List.filter_append]
  have htext : List.filter (fun cm => cm.message_type == MessageType.Leave)
      (decodedMsgs (inboundLoop u ids times lines 2).1) = [] := by
    rw [List.filter_eq_nil_iff]
    intro cm hcm
    have := (decodedMsgs_inboundLoop u ids times lines 2 cm hcm).2
    simp [this]
  rw [htext]
  simp [leaveMsg]

theorem countKind_inboundTask_join (u : String) (ids : Nat → Uuid)
    (times : Nat → U64) (lines : List String) (ok : Bool) :
    countKind .Join (inboundTask u ids times lines ok) = 0 := by
  rw [countKind, List.length_eq_zero, List.filter_eq_nil_iff]
  intro cm hcm
  obtain ⟨j, hj, hfrom⟩ := decodedMsgs_mem hcm
  obtain ⟨cm', hj', _, hk⟩ := inboundTask_mem hj
  rw [hj', from_json_to_json] at hfrom
  cases hfrom
  rcases hk with h | ⟨h, _⟩ <;> simp [h]

theorem outboundWrites_mem (u : String) :
    ∀ (revts : List RecvEvent) (j : Json), j ∈ outboundWrites u revts →
      ∃ cm, ChatMessage.from_json j = .ok cm ∧ cm.username ≠ u := by
  intro revts
  induction revts with
  | nil => intro j h; simp [outboundWrites] at h
  | cons e rest ih =>
      intro j h
      cases e with
      | msg j' =>
          simp only [outboundWrites] at h
          cases hfrom : ChatMessage.from_json j' with
          | ok cm =>
              rw [hfrom] at h
              simp only at h
              by_cases hu : cm.username ≠ u
              · rw [if_pos hu] at h
                rcases List.mem_cons.mp h with rfl | h2
                · exact ⟨cm, hfrom, hu⟩
                · exact ih j h2
              · rw [if_neg hu] at h
                exact ih j h
          | error msg =>
              rw [hfrom] at h
              simp only at h
              exact ih j h
      | lagged =>
          simp only [outboundWrites] at h
          exact ih j h
      | closed =>
          simp [outboundWrites] at h

theorem containsKey_remove (r : Registry) (u : String) :
    (r.remove u).containsKey u = false := by
  simp only [Registry.remove, Registry.containsKey, List.any_eq_false]
  intro e he
  have h2 := (List.mem_filter.mp he).2
  simp only [Bool.not_eq_eq_eq_not, Bool.not_true] at h2
  simp [h2]

/-! ### The claims -/

/-- C4: for every valid envelope E of any of the four kinds (Text, Join,
Leave, System), decoding the encoding of E yields E unchanged:
`from_json (to_json E)` succeeds and returns an envelope equal to E in every
field (id, username, content, timestamp, kind). -/
theorem C4_encode_decode_roundtrip (m : ChatMessage) :
    ChatMessage.from_json m.to_json = Except.ok m :=
  from_json_to_json m

/-- C3 counterexample: the accept loop is `while let Ok(...)`, so a single
failed accept terminates it — a connection arriving after a failed accept is
never handled, although the same connection alone would have been. -/
theorem C3_counterexample :
    acceptLoop [Except.error (), Except.ok 0] = [] ∧
      acceptLoop [Except.ok 0] = [0] :=
  ⟨rfl, rfl⟩

/-- C3 amended: the accept loop handles accepted connections in order but
terminates at the first accept error; connections after a failed accept are
not handled. -/
theorem C3_accept_error_terminates_loop (pre rest : List (Except Unit ConnId))
    (e : Unit) (c : ConnId) :
    acceptLoop (pre ++ Except.error e :: rest) = acceptLoop pre ∧
      acceptLoop (Except.ok c :: rest) = c :: acceptLoop rest := by
  constructor
  · induction pre with
    | nil => rfl
    | cons a pre ih =>
        cases a with
        | ok c' => simpa [acceptLoop] using ih
        | error e' => rfl
  · rfl

/-- C6: the hub's buffer capacity is 100, and a `Lagged` result is non-fatal
for the outbound loop: the loop continues with the next receive, whose
results are processed exactly as if the lag had not happened. -/
theorem C6_capacity_and_lagged_nonfatal :
    channelCapacity = 100 ∧
      ∀ (u : String) (rest : List RecvEvent),
        outboundWrites u (.lagged :: rest) = outboundWrites u rest :=
  ⟨rfl, fun _ _ => rfl⟩

/-- C7: every envelope the outbound loop writes to the socket decodes to an
envelope whose origin differs from the session's username; an envelope whose
origin equals the session's username is never written back. -/
theorem C7_never_echo_own_origin (u : String) (revts : List RecvEvent)
    (j : Json) (h : j ∈ outboundWrites u revts) :
    ∃ cm, ChatMessage.from_json j = .ok cm ∧ cm.username ≠ u :=
  outboundWrites_mem u revts j h

theorem C7_never_echo_own_origin_witness :
    ∃ cm, ChatMessage.from_json
        ((ChatMessage.mk ⟨0, by norm_num⟩ "bob" "hi" ⟨0, by norm_num⟩
          .Text).to_json) = .ok cm ∧ cm.username ≠ "alice" :=
  C7_never_echo_own_origin "alice"
    [.msg ((ChatMessage.mk ⟨0, by norm_num⟩ "bob" "hi" ⟨0, by norm_num⟩
      .Text).to_json)] _ (List.Mem.head _)

/-- C9 counterexample: with the system clock one second before the Unix
epoch, the `.unwrap()` in `ChatMessage::new` panics (modelled as `none`), so
construction is not total: a panic is reachable. -/
theorem C9_counterexample :
    ChatMessage.new ⟨0, by norm_num⟩ "alice" "hi" .Text (-1) = none := rfl

/-- C9 amended: provided the system clock is at or after the Unix epoch,
envelope construction always succeeds and returns the envelope stamped with
the freshly drawn id and the current clock reading. -/
theorem C9_new_total_after_epoch (id : Uuid) (u c : String)
    (mt : MessageType) (now : Int) (h : 0 ≤ now) :
    ChatMessage.new id u c mt now = some ⟨id, u, c, truncU64 now.toNat, mt⟩ := by
  simp [ChatMessage.new, h]

theorem C9_new_total_after_epoch_witness :
    (0 : Int) ≤ 5 ∧
      ChatMessage.new ⟨0, by norm_num⟩ "alice" "hi" .Text 5 =
        some ⟨⟨0, by norm_num⟩, "alice", "hi", truncU64 ((5 : Int)).toNat, .Text⟩ :=
  ⟨by norm_num, C9_new_total_after_epoch ⟨0, by norm_num⟩ "alice" "hi" .Text 5
    (by norm_num)⟩

/-- C8: a connection whose first line is empty after trimming gets exactly
the prompt and one rejection line, the session publishes nothing, and the
registry is left unchanged (nothing was inserted). -/
theorem C8_empty_username_rejected (inp : SessionInput) (reg : Registry)
    (conn : ConnId) (h : trim inp.firstLine = "") :
    (handle_client inp reg conn).written =
      [.raw "Enter Username : ", .raw "Username cannot be empty!\n"] ∧
    (handle_client inp reg conn).published = [] ∧
    (handle_client inp reg conn).registry = reg := by
  simp [handle_client, h]

theorem C8_empty_username_rejected_witness :
    trim "  " = "" ∧
    ((handle_client ⟨"  ", [], true, [], fun _ => ⟨0, by norm_num⟩,
        fun _ => ⟨0, by norm_num⟩⟩ [] 0).written =
      [.raw "Enter Username : ", .raw "Username cannot be empty!\n"] ∧
     (handle_client ⟨"  ", [], true, [], fun _ => ⟨0, by norm_num⟩,
        fun _ => ⟨0, by norm_num⟩⟩ [] 0).published = [] ∧
     (handle_client ⟨"  ", [], true, [], fun _ => ⟨0, by norm_num⟩,
        fun _ => ⟨0, by norm_num⟩⟩ [] 0).registry = []) :=
  ⟨rfl, C8_empty_username_rejected _ _ _ rfl⟩


/-- C1 (code bug): src/src/server.rs constructs the Join envelope at lines
79-83 (with payload "<username> joint the chat!") but never sends it to the
hub — despite its own "sent join notification" comment — so no session ever
publishes an envelope of kind Join, and no other session can receive one. -/
theorem C1_join_never_published (inp : SessionInput) (reg : Registry)
    (conn : ConnId) :
    countKind .Join (handle_client inp reg conn).published = 0 := by
  by_cases h : trim inp.firstLine = ""
  · simp [handle_client, h, countKind, decodedMsgs]
  · have hpub : (handle_client inp reg conn).published =
        inboundTask (trim inp.firstLine) inp.ids inp.times inp.lines
          inp.inboundSetupOk := by
      simp [handle_client, h]
    rw [hpub]
    exact countKind_inboundTask_join _ _ _ _ _

/-- C2: a session whose inbound loop reads `/quit` publishes exactly one
Leave envelope, that envelope carries origin `<username>` and payload
"<username> left the chat!", and after the session completes the registry no
longer contains the username. -/
theorem C2_quit_one_leave_and_deregistered (inp : SessionInput)
    (reg : Registry) (conn : ConnId) (u : String)
    (hu : trim inp.firstLine = u) (hne : u ≠ "")
    (hsetup : inp.inboundSetupOk = true)
    (_hquit : "/quit" ∈ inp.lines.map trim) :
    countKind .Leave (handle_client inp reg conn).published = 1 ∧
    (∀ cm ∈ decodedMsgs (handle_client inp reg conn).published,
      cm.message_type = .Leave →
        cm.username = u ∧ cm.content = u ++ " left the chat!") ∧
    (handle_client inp reg conn).registry.containsKey u = false := by
  have hne' : trim inp.firstLine ≠ "" := by rw [hu]; exact hne
  have hpub : (handle_client inp reg conn).published =
      inboundTask u inp.ids inp.times inp.lines true := by
    simp [handle_client, hu, hne, hsetup]
  have hreg : (handle_client inp reg conn).registry =
      (Registry.insert reg u conn).remove u := by
    simp [handle_client, hu, hne]
  refine ⟨?_, ?_, ?_⟩
  · rw [hpub]
    exact countKind_inboundTask_leave u _ _ _
  · rw [hpub]
    intro cm hcm hk
    obtain ⟨j, hj, hfrom⟩ := decodedMsgs_mem hcm
    obtain ⟨cm', hjeq, hu', hk'⟩ := inboundTask_mem hj
    rw [hjeq, from_json_to_json] at hfrom
    cases hfrom
    rcases hk' with h | ⟨_, hc⟩
    · rw [hk] at h
      simp at h
    · exact ⟨hu', hc⟩
  · rw [hreg]
    exact containsKey_remove _ u

theorem C2_quit_one_leave_and_deregistered_witness :
    trim "alice" = "alice" ∧ "alice" ≠ "" ∧
    sampleInput.inboundSetupOk = true ∧
    "/quit" ∈ sampleInput.lines.map trim ∧
    (countKind .Leave (handle_client sampleInput [] 0).published = 1 ∧
     (∀ cm ∈ decodedMsgs (handle_client sampleInput [] 0).published,
       cm.message_type = .Leave →
         cm.username = "alice" ∧ cm.content = "alice" ++ " left the chat!") ∧
     (handle_client sampleInput [] 0).registry.containsKey "alice" = false) :=
  ⟨rfl, by decide, rfl, by decide,
   C2_quit_one_leave_and_deregistered sampleInput [] 0 "alice" rfl (by decide)
     rfl (by decide)⟩

/-- C5 counterexample: at a concrete session, the hub subscription is the
very first event of the connection's trace, created in the accept loop
before the registry insert (and before any publish) — refuting the claimed
order insert, then Join publish, then welcome, and only then the
subscription. -/
theorem C5_counterexample :
    ∃ rest, sessionTrace sampleInput = Event.subscribe :: rest ∧
      Event.regInsert "alice" ∈ rest :=
  ⟨_, rfl, List.Mem.tail _ (List.Mem.head _)⟩

/-- C5 amended: the subscription is created (by the accept loop) before any
other event of the connection; within the handler, the registry insert comes
first, then the direct System welcome write, then the two loops; the Join
envelope is constructed but never published, so no published payload of any
session decodes to kind Join. -/
theorem C5_order_subscribe_insert_welcome (inp : SessionInput) (u : String)
    (hu : trim inp.firstLine = u) (hne : u ≠ "") :
    (∃ rest, sessionTrace inp =
      [.subscribe, .write (.raw "Enter Username : "), .regInsert u,
       .write (.line (welcomeMsg u (inp.ids 1) (inp.times 1)).to_json)] ++
        rest) ∧
    ∀ j, Event.publish j ∈ sessionTrace inp →
      ∀ cm, ChatMessage.from_json j = .ok cm → cm.message_type ≠ .Join := by
  have hne' : trim inp.firstLine ≠ "" := by rw [hu]; exact hne
  constructor
  · refine ⟨(inboundTask u inp.ids inp.times inp.lines
        inp.inboundSetupOk).map .publish ++
      (outboundWrites u inp.recvs).map (fun j => .write (.line j)) ++
      [.regRemove u], ?_⟩
    simp [sessionTrace, hu, hne]
  · intro j hj cm hfrom
    have hj' : j ∈ inboundTask u inp.ids inp.times inp.lines
        inp.inboundSetupOk := by
      simp [sessionTrace, hu, hne] at hj
      exact hj
    obtain ⟨cm', hjeq, hu', hk⟩ := inboundTask_mem hj'
    rw [hjeq, from_json_to_json] at hfrom
    cases hfrom
    rcases hk with h | ⟨h, _⟩ <;> simp [h]

theorem C5_order_subscribe_insert_welcome_witness :
    trim "alice" = "alice" ∧ "alice" ≠ "" ∧
    ((∃ rest, sessionTrace sampleInput =
      [.subscribe, .write (.raw "Enter Username : "), .regInsert "alice",
       .write (.line (welcomeMsg "alice" (sampleInput.ids 1)
         (sampleInput.times 1)).to_json)] ++ rest) ∧
    ∀ j, Event.publish j ∈ sessionTrace sampleInput →
      ∀ cm, ChatMessage.from_json j = .ok cm → cm.message_type ≠ .Join) :=
  ⟨rfl, by decide,
   C5_order_subscribe_insert_welcome sampleInput "alice" rfl (by decide)⟩

/-- C10: because the outbound filter compares only the envelope's origin
string with the session's username, every payload published by a session
registered under username u decodes to origin u, and is therefore never
written by any outbound loop whose session username is u — in particular, two
sessions registered under the same username never receive each other's
messages (nor their own). -/
theorem C10_duplicate_usernames_suppressed (inpA : SessionInput)
    (regA : Registry) (connA : ConnId) (u : String)
    (hA : trim inpA.firstLine = u) (j : Json)
    (hj : j ∈ (handle_client inpA regA connA).published)
    (revts : List RecvEvent) :
    j ∉ outboundWrites u revts := by
  intro hmem
  obtain ⟨cm, hfrom, hne⟩ := outboundWrites_mem u revts j hmem
  by_cases h0 : trim inpA.firstLine = ""
  · simp [handle_client, h0] at hj
  · have h0' : ¬(u = "") := hA ▸ h0
    have hpub : (handle_client inpA regA connA).published =
        inboundTask u inpA.ids inpA.times inpA.lines inpA.inboundSetupOk := by
      simp [handle_client, hA, h0']
    rw [hpub] at hj
    obtain ⟨cm', hjeq, hu', _⟩ := inboundTask_mem hj
    rw [hjeq, from_json_to_json] at hfrom
    cases hfrom
    exact hne hu'

theorem C10_duplicate_usernames_suppressed_witness :
    trim "alice" = "alice" ∧
    (ChatMessage.mk ⟨0, Nat.two_pow_pos 128⟩ "alice" "hi"
        ⟨0, Nat.two_pow_pos 64⟩ .Text).to_json ∉
      outboundWrites "alice"
        [.msg ((ChatMessage.mk ⟨0, Nat.two_pow_pos 128⟩ "alice" "hi"
          ⟨0, Nat.two_pow_pos 64⟩ .Text).to_json)] :=
  ⟨rfl, C10_duplicate_usernames_suppressed sampleInput [] 0 "alice" rfl _
    (List.Mem.head _) _⟩

end Chat
